import Mathlib

/-!
# PackagePurge — verification of the natural-language specification

This development shallowly embeds the parts of the PackagePurge repository
that the verified claims are about, and proves (or refutes) each claim over
that embedding.

The repository splits into a TypeScript glue layer (CLI argument handling,
configuration loading, lock-file parsing, bindings that spawn the
`packagepurge-core` binary) — present under `src/` — and a Rust core
(OptimizationEngine, PackageLruCache, QuarantineManager,
SemanticDeduplication) that is not part of the source tree here.
Definitions for the TypeScript layer are translated from the source files;
definitions for the missing core components are modelled from the spec and
are marked `Modelled from the spec:` in their doc comments.
-/

set_option maxRecDepth 4096

namespace PackagePurge

/-! ## CLI layer: the `clean` command (src/unnamed/part_002, `clean` action)

The `clean` command registers a `--fast` option ("Skip SHA256 verification
for faster cleanup", default `false`) and then invokes the core binary with
`runCore(['quarantine', ...opts.targets])`.  The argument list handed to the
core is built here exactly as in the source: the `fast` option value is in
scope for the action but is never consulted when the argument vector is
assembled. -/

/-- Embeds the argument vector that the CLI `clean` action passes to the
spawned core binary (`runCore(['quarantine', ...opts.targets])`,
src/unnamed/part_002 line 179).  `fast` is the parsed value of the
`--fast` option, which the action body never reads. -/
def buildCleanCoreArgs (targets : List String) (fast : Bool) : List String :=
  "quarantine" :: targets

/-! ## CLI layer: the `optimize` command defaults (src/unnamed/part_002)

Commander options carry string defaults: `--preserve-days` defaults to
`'90'`, `--lru-max-packages` to `'1000'`, `--lru-max-size-bytes` to
`'10000000000'`.  The action then assembles the core argument vector. -/

/-- Embeds the argument vector the CLI `optimize` action passes to the core
binary (src/unnamed/part_002 lines 251-264).  Each `Option String` is the
user-supplied option value; `none` means the user omitted the option, in
which case commander supplies the declared string default. -/
def buildOptimizeCoreArgs (preserveDays lruMaxPackages lruMaxSizeBytes : Option String)
    (enableSymlinking enableMl : Bool) (paths : List String) : List String :=
  ["optimize",
   "--preserve-days", preserveDays.getD "90",
   "--lru-max-packages", lruMaxPackages.getD "1000",
   "--lru-max-size-bytes", lruMaxSizeBytes.getD "10000000000"]
  ++ (if enableSymlinking then ["--enable-symlinking"] else [])
  ++ (if enableMl then ["--enable-ml"] else [])
  ++ (if paths.isEmpty then [] else "--paths" :: paths)

/-! ## Configuration loader (src/src/utils/formatter.ts, config section) -/

/-- Embeds the `PackagePurgeConfig` interface resolved against defaults
(every field present), src/src/utils/formatter.ts lines 359-387. -/
structure Config where
  preserveDays : Nat
  paths : List String
  exclude : List String
  enableSymlinking : Bool
  enableMl : Bool
  lruMaxPackages : Nat
  lruMaxSizeBytes : Nat
  quarantineMaxSizeGb : Nat
  quarantineRetentionDays : Nat
  format : String
  quiet : Bool
  verbose : Bool
deriving Repr, DecidableEq

/-- Embeds `DEFAULT_CONFIG` (src/src/utils/formatter.ts lines 392-407). -/
def DEFAULT_CONFIG : Config :=
  { preserveDays := 90
    paths := []
    exclude := ["**/node_modules/.cache/**"]
    enableSymlinking := false
    enableMl := false
    lruMaxPackages := 1000
    lruMaxSizeBytes := 10000000000
    quarantineMaxSizeGb := 10
    quarantineRetentionDays := 30
    format := "table"
    quiet := false
    verbose := false }

/-- Embeds a `Partial<PackagePurgeConfig>` override object: each field is
`none` when the key is absent (or `undefined`) in the override. -/
structure ConfigOverride where
  preserveDays : Option Nat := none
  paths : Option (List String) := none
  exclude : Option (List String) := none
  enableSymlinking : Option Bool := none
  enableMl : Option Bool := none
  lruMaxPackages : Option Nat := none
  lruMaxSizeBytes : Option Nat := none
  quarantineMaxSizeGb : Option Nat := none
  quarantineRetentionDays : Option Nat := none
  format : Option String := none
  quiet : Option Bool := none
  verbose : Option Bool := none
deriving Repr

/-- Embeds `mergeConfig` (src/src/utils/formatter.ts lines 530-551):
defined keys in the override replace the base value; `undefined` keys are
skipped; the `quarantine` object is merged field-wise. -/
def mergeConfig (base : Config) (o : ConfigOverride) : Config :=
  { preserveDays := o.preserveDays.getD base.preserveDays
    paths := o.paths.getD base.paths
    exclude := o.exclude.getD base.exclude
    enableSymlinking := o.enableSymlinking.getD base.enableSymlinking
    enableMl := o.enableMl.getD base.enableMl
    lruMaxPackages := o.lruMaxPackages.getD base.lruMaxPackages
    lruMaxSizeBytes := o.lruMaxSizeBytes.getD base.lruMaxSizeBytes
    quarantineMaxSizeGb := o.quarantineMaxSizeGb.getD base.quarantineMaxSizeGb
    quarantineRetentionDays := o.quarantineRetentionDays.getD base.quarantineRetentionDays
    format := o.format.getD base.format
    quiet := o.quiet.getD base.quiet
    verbose := o.verbose.getD base.verbose }

/-- Embeds `loadConfig` (src/src/utils/formatter.ts lines 498-525) as a
function of its filesystem observations.  `configFile` is the result of
`findConfigFile`: `none` when no config file exists on the walk up the
directory tree, `some (path, parsed)` when a file was found, where
`parsed = none` models `parseConfigFile` throwing (the catch prints a
warning and leaves `source` null).  `pkgJson` is the result of
`loadFromPackageJson`: the `packagepurge` key of the nearest
`package.json`, or `none`. -/
def loadConfig (configFile : Option (String × Option ConfigOverride))
    (pkgJson : Option ConfigOverride) : Config × Option String :=
  match configFile with
  | some (p, some fc) => (mergeConfig DEFAULT_CONFIG fc, some p)
  | some (_, none) =>
      match pkgJson with
      | some pc => (mergeConfig DEFAULT_CONFIG pc, some "package.json")
      | none => (DEFAULT_CONFIG, none)
  | none =>
      match pkgJson with
      | some pc => (mergeConfig DEFAULT_CONFIG pc, some "package.json")
      | none => (DEFAULT_CONFIG, none)

/-! ## String primitives

`String.prototype.startsWith`, `endsWith` and `split('\n')` are modelled
over the character list so that every definition evaluates inside the
kernel. -/

/-- Whether the second list is an initial segment of the first. -/
def listStartsWith : List Char → List Char → Bool
  | _, [] => true
  | [], _ :: _ => false
  | c :: cs, p :: ps => c = p && listStartsWith cs ps

/-- `String.prototype.startsWith` / Lean's `String.startsWith`. -/
def strStartsWith (s pre : String) : Bool :=
  listStartsWith s.data pre.data

/-- `String.prototype.endsWith` / Lean's `String.endsWith`. -/
def strEndsWith (s suf : String) : Bool :=
  listStartsWith s.data.reverse suf.data.reverse

/-- Split a character list at line feeds (the separators are consumed; a
trailing separator yields a final empty segment, as in JavaScript's
`split('\n')`). -/
def splitOnNewline : List Char → List (List Char)
  | [] => [[]]
  | c :: cs =>
    let r := splitOnNewline cs
    if c = Char.ofNat 10 then [] :: r
    else
      match r with
      | [] => [[c]]
      | l :: ls => (c :: l) :: ls

/-- `content.split('\n')`. -/
def strLines (s : String) : List String :=
  (splitOnNewline s.data).map String.mk

/-! ## JSON values and `JSON.parse`

The bindings call `JSON.parse` on the core's stdout, and the npm manager's
`parseLockFile` calls `fs.readJson` (also `JSON.parse` underneath).  We
embed the JSON data model and a parser for the JSON grammar.  The model
follows the ECMA-404 grammar accepted by `JSON.parse`: numbers are kept as
their raw lexemes (no floating-point semantics are needed by any claim),
and object duplicate keys follow the JavaScript rule (first key position,
last value). -/

/-- A parsed JSON value, as produced by `JSON.parse`. -/
inductive Json where
  | null : Json
  | bool (b : Bool) : Json
  | num (raw : String) : Json
  | str (s : String) : Json
  | arr (elems : List Json) : Json
  | obj (fields : List (String × Json)) : Json

/-- The left curly bracket character (written via its code point). -/
def lcurly : Char := Char.ofNat 123

/-- The right curly bracket character (written via its code point). -/
def rcurly : Char := Char.ofNat 125

/-- JSON insignificant whitespace: space, tab, line feed, carriage return. -/
def isJsonWs (c : Char) : Bool :=
  c = ' ' || c = Char.ofNat 9 || c = Char.ofNat 10 || c = Char.ofNat 13

/-- Skip insignificant whitespace. -/
def skipWs : List Char → List Char
  | [] => []
  | c :: cs => if isJsonWs c then skipWs cs else c :: cs

/-- Value of one hexadecimal digit. -/
def hexVal (c : Char) : Option Nat :=
  if '0' ≤ c ∧ c ≤ '9' then some (c.toNat - '0'.toNat)
  else if 'a' ≤ c ∧ c ≤ 'f' then some (c.toNat - 'a'.toNat + 10)
  else if 'A' ≤ c ∧ c ≤ 'F' then some (c.toNat - 'A'.toNat + 10)
  else none

/-- Parse the body of a JSON string after the opening quote, returning the
decoded characters and the input following the closing quote.  Escape
sequences follow `JSON.parse`; a `\xuXXXX` escape is decoded with
`Char.ofNat` (code points that are not scalar values decode to the
`Char.ofNat` fallback, an approximation of UTF-16 surrogates that no claim
depends on). -/
def parseStringBody : List Char → Option (List Char × List Char)
  | [] => none
  | c :: cs =>
    if c = '"' then some ([], cs)
    else if c = Char.ofNat 92 then
      match cs with
      | [] => none
      | e :: cs' =>
        if e = 'u' then
          match cs' with
          | h1 :: h2 :: h3 :: h4 :: cs'' =>
            match hexVal h1, hexVal h2, hexVal h3, hexVal h4 with
            | some v1, some v2, some v3, some v4 =>
              (parseStringBody cs'').map fun (body, rest) =>
                (Char.ofNat (((v1 * 16 + v2) * 16 + v3) * 16 + v4) :: body, rest)
            | _, _, _, _ => none
          | _ => none
        else
          let decoded : Option Char :=
            if e = '"' then some '"'
            else if e = Char.ofNat 92 then some (Char.ofNat 92)
            else if e = '/' then some '/'
            else if e = 'b' then some (Char.ofNat 8)
            else if e = 'f' then some (Char.ofNat 12)
            else if e = 'n' then some (Char.ofNat 10)
            else if e = 'r' then some (Char.ofNat 13)
            else if e = 't' then some (Char.ofNat 9)
            else none
          match decoded with
          | none => none
          | some d => (parseStringBody cs').map fun (body, rest) => (d :: body, rest)
    else if c.toNat < 32 then none
    else (parseStringBody cs).map fun (body, rest) => (c :: body, rest)

/-- Split off a maximal run of decimal digits. -/
def takeDigits : List Char → List Char × List Char
  | [] => ([], [])
  | c :: cs =>
    if c.isDigit then
      let (ds, rest) := takeDigits cs
      (c :: ds, rest)
    else ([], c :: cs)

/-- Parse an optional JSON fraction part (`. digits`); fails when a decimal
point is not followed by a digit. -/
def parseFracPart (l : List Char) : Option (List Char × List Char) :=
  match l with
  | '.' :: ds =>
    let (digits, rest) := takeDigits ds
    if digits.isEmpty then none else some ('.' :: digits, rest)
  | _ => some ([], l)

/-- Parse an optional JSON exponent part (`[eE] [+-]? digits`); fails when
an exponent marker is not followed by a digit. -/
def parseExpPart (l : List Char) : Option (List Char × List Char) :=
  match l with
  | e :: es =>
    if e = 'e' || e = 'E' then
      let (sgn, es') := match es with
        | '+' :: r => (['+'], r)
        | '-' :: r => ([('-' : Char)], r)
        | _ => (([] : List Char), es)
      let (digits, rest) := takeDigits es'
      if digits.isEmpty then none else some (e :: sgn ++ digits, rest)
    else some ([], e :: es)
  | [] => some ([], [])

/-- Parse a JSON number lexeme (`-? int frac? exp?`), returning the raw
lexeme and the remaining input.  The integer part is a single `0` or a
nonzero digit followed by digits, as in the JSON grammar. -/
def parseNumberLexeme (l : List Char) : Option (List Char × List Char) :=
  let (sign, l1) := match l with
    | '-' :: rest => ([('-' : Char)], rest)
    | _ => (([] : List Char), l)
  match l1 with
  | [] => none
  | c :: cs =>
    let intResult : Option (List Char × List Char) :=
      if c = '0' then some ([c], cs)
      else if c.isDigit then some (takeDigits (c :: cs))
      else none
    match intResult with
    | none => none
    | some (intPart, l2) =>
      match parseFracPart l2 with
      | none => none
      | some (fracPart, l3) =>
        match parseExpPart l3 with
        | none => none
        | some (expPart, l4) => some (sign ++ intPart ++ fracPart ++ expPart, l4)

/-- `Map.set` semantics of a JavaScript `Map` (and the duplicate-key rule
of a JSON object): an existing key keeps its position and takes the new
value; a new key is appended in insertion order. -/
def mapSet {α : Type} (m : List (String × α)) (k : String) (v : α) :
    List (String × α) :=
  if m.any (fun e => e.1 == k) then
    m.map (fun e => if e.1 == k then (k, v) else e)
  else m ++ [(k, v)]

/-- Insert a key/value pair into a JSON object under construction. -/
def objInsert (fields : List (String × Json)) (k : String) (v : Json) :
    List (String × Json) :=
  mapSet fields k v

mutual

/-- Parse one JSON value.  The `fuel` argument bounds recursion depth; the
top-level entry point supplies fuel proportional to the input length, which
is always sufficient since every two recursive steps consume input. -/
def parseValue : Nat → List Char → Option (Json × List Char)
  | 0, _ => none
  | fuel + 1, l =>
    match skipWs l with
    | [] => none
    | c :: cs =>
      if c = 'n' then
        match cs with
        | 'u' :: 'l' :: 'l' :: rest => some (Json.null, rest)
        | _ => none
      else if c = 't' then
        match cs with
        | 'r' :: 'u' :: 'e' :: rest => some (Json.bool true, rest)
        | _ => none
      else if c = 'f' then
        match cs with
        | 'a' :: 'l' :: 's' :: 'e' :: rest => some (Json.bool false, rest)
        | _ => none
      else if c = '"' then
        (parseStringBody cs).map fun (body, rest) => (Json.str (String.mk body), rest)
      else if c = '[' then
        match skipWs cs with
        | ']' :: rest => some (Json.arr [], rest)
        | l' => (parseElems fuel l').map fun (es, rest) => (Json.arr es, rest)
      else if c = lcurly then
        match skipWs cs with
        | d :: rest =>
          if d = rcurly then some (Json.obj [], rest)
          else (parseFields fuel [] (d :: rest)).map fun (fs, rest') => (Json.obj fs, rest')
        | [] => none
      else if c = '-' ∨ c.isDigit then
        (parseNumberLexeme (c :: cs)).map fun (lex, rest) => (Json.num (String.mk lex), rest)
      else none

/-- Parse the elements of a non-empty JSON array (after the opening
bracket), up to and including the closing bracket. -/
def parseElems : Nat → List Char → Option (List Json × List Char)
  | 0, _ => none
  | fuel + 1, l =>
    match parseValue fuel l with
    | none => none
    | some (v, rest) =>
      match skipWs rest with
      | ',' :: rest' => (parseElems fuel rest').map fun (vs, r) => (v :: vs, r)
      | ']' :: rest' => some ([v], rest')
      | _ => none

/-- Parse the members of a non-empty JSON object (after the opening
bracket), up to and including the closing bracket, accumulating with the
JavaScript duplicate-key rule. -/
def parseFields : Nat → List (String × Json) → List Char →
    Option (List (String × Json) × List Char)
  | 0, _, _ => none
  | fuel + 1, acc, l =>
    match skipWs l with
    | '"' :: cs =>
      match parseStringBody cs with
      | none => none
      | some (key, rest) =>
        match skipWs rest with
        | ':' :: rest' =>
          match parseValue fuel rest' with
          | none => none
          | some (v, rest'') =>
            let acc' := objInsert acc (String.mk key) v
            match skipWs rest'' with
            | ',' :: rest3 => parseFields fuel acc' rest3
            | d :: rest3 => if d = rcurly then some (acc', rest3) else none
            | [] => none
        | _ => none
    | _ => none

end

/-- Embeds `JSON.parse`: parse a complete JSON text, rejecting trailing
content.  Returns `none` exactly when `JSON.parse` would throw a
`SyntaxError`. -/
def jsonParse (s : String) : Option Json :=
  match parseValue (2 * s.length + 2) s.data with
  | none => none
  | some (j, rest) => if (skipWs rest).isEmpty then some j else none

/-- Whether a JSON number lexeme denotes zero (the mantissa digits are all
`0`, whatever the sign, decimal point, or exponent). -/
def jsonNumIsZero (raw : String) : Bool :=
  ((raw.data.takeWhile (fun c => c ≠ 'e' ∧ c ≠ 'E')).filter
    (fun c => c ≠ '-' ∧ c ≠ '.')).all (· = '0')

/-- JavaScript truthiness of a parsed JSON value (`if (x)`). -/
def Json.truthy : Json → Bool
  | .null => false
  | .bool b => b
  | .num raw => !jsonNumIsZero raw
  | .str s => !s.isEmpty
  | .arr _ => true
  | .obj _ => true

/-- Property access `x.k` on a parsed JSON value: a field of an object,
`undefined` (here `none`) otherwise. -/
def Json.getField : Json → String → Option Json
  | .obj fs, k => (fs.find? (fun e => e.1 == k)).map (·.2)
  | _, _ => none

/-- `Object.entries` on a parsed JSON value: the fields of an object, the
indexed elements of an array, the indexed characters of a string, and
nothing for primitives. -/
def jsonEntries : Json → List (String × Json)
  | .obj fs => fs
  | .arr es => es.enum.map (fun iv => (toString iv.1, iv.2))
  | .str s => s.data.enum.map (fun ic => (toString ic.1, Json.str (String.singleton ic.2)))
  | _ => []

/-! ## npm lock-file parsing (src/unnamed/part_001, `NpmManager.parseLockFile`)

`parseLockFile` reads the lock file as JSON (`fs.readJson`) and walks its
nested `dependencies` objects with the inner `extractDependencies`
function; any failure is caught and an empty dependency map is returned.
The catch block contains no logging or reporting of any kind. -/

mutual

/-- Size of a JSON value (strictly dominates the nesting depth); used as
recursion fuel for the lock-file dependency walker. -/
def jsonSize : Json → Nat
  | .null => 1
  | .bool _ => 1
  | .num _ => 1
  | .str _ => 1
  | .arr es => jsonSizeList es + 1
  | .obj fs => jsonSizeFields fs + 1

/-- Total size of a list of JSON values. -/
def jsonSizeList : List Json → Nat
  | [] => 0
  | j :: js => jsonSize j + jsonSizeList js

/-- Total size of a list of JSON object fields. -/
def jsonSizeFields : List (String × Json) → Nat
  | [] => 0
  | f :: fs => jsonSize f.2 + jsonSizeFields fs

end

/-- Embeds the inner `extractDependencies(obj, prefix)` walker
(src/unnamed/part_001 lines 29-41): for each entry of `obj.dependencies`,
record `fullName -> dep.version` when `dep.version` is truthy, then recurse
into `dep` when `dep.dependencies` is truthy.  The `fuel` argument bounds
the recursion depth; callers pass `jsonSize` of the root value, which always
dominates the depth of nested subterms. -/
def npmExtract : Nat → Json → String → List (String × Json) → List (String × Json)
  | 0, _, _, acc => acc
  | fuel + 1, objVal, pre, acc =>
    match objVal.getField "dependencies" with
    | none => acc
    | some depsVal =>
      if depsVal.truthy then
        (jsonEntries depsVal).foldl
          (fun acc' nv =>
            let name := nv.1
            let dep := nv.2
            let fullName := if pre.isEmpty then name else pre ++ "/" ++ name
            let acc'' := match dep.getField "version" with
              | some v => if v.truthy then mapSet acc' fullName v else acc'
              | none => acc'
            match dep.getField "dependencies" with
            | some d => if d.truthy then npmExtract fuel dep fullName acc'' else acc''
            | none => acc'')
          acc
      else acc

/-- Embeds `NpmManager.parseLockFile` (src/unnamed/part_001 lines 22-49)
as a function of the lock file's text: parse as JSON and extract nested
dependencies; if parsing fails, return the empty map (the catch block). -/
def npmParseLockFile (content : String) : List (String × Json) :=
  match jsonParse content with
  | none => []
  | some lockFile => npmExtract (jsonSize lockFile) lockFile "" []

/-- `NpmManager.parseLockFile` together with the list of log/report
messages it emits.  The source function contains no logging call at all
(its catch block holds only a comment), so the second component is empty
on every path. -/
def npmParseLockFileWithLogs (content : String) :
    List (String × Json) × List String :=
  match jsonParse content with
  | none => ([], [])
  | some lockFile => (npmExtract (jsonSize lockFile) lockFile "" [], [])

/-! ## pnpm lock-file parsing (src/src/managers/pnpm-manager.ts lines 22-60)

`PnpmManager.parseLockFile` reads the file (failure caught → empty map)
and scans it line by line: a trimmed line ending in `:` that does not start
with `#` (and is not the `lockfile...` header) sets the current package
name via the regex `^(.+?):$`; a line starting with `version:` records
`version:\s*(.+?)$` (quotes stripped) for the current package. -/

/-- JavaScript whitespace for `trim()` and `\s` (ASCII part; the Unicode
space classes never occur in the claims' inputs). -/
def isJsWs (c : Char) : Bool :=
  c = ' ' || c = Char.ofNat 9 || c = Char.ofNat 10 || c = Char.ofNat 13 ||
  c = Char.ofNat 12 || c = Char.ofNat 11

/-- `String.prototype.trim`. -/
def jsTrim (s : String) : String :=
  String.mk (((s.data.dropWhile isJsWs).reverse.dropWhile isJsWs).reverse)

/-- One iteration of the pnpm lock-file line loop, carrying the dependency
map and `currentPackage`.  The regex `^(.+?):$` matches exactly the lines
of length ≥ 2 ending in `:`, with group 1 everything before the final
colon; `version:\s*(.+?)$` (guarded by `startsWith('version:')`) skips the
whitespace after the marker greedily, backing off to a single whitespace
character when nothing else remains, and strips `"` and `'` from the
group. -/
def pnpmStep (st : List (String × String) × Option String) (line : String) :
    List (String × String) × Option String :=
  let deps := st.1
  let currentPackage := st.2
  let trimmed := jsTrim line
  let currentPackage1 :=
    if strEndsWith trimmed ":" && !strStartsWith trimmed " " && !strStartsWith trimmed "#" then
      if trimmed.length ≥ 2 then
        let name := trimmed.dropRight 1
        if !strStartsWith name "lockfile" then some name else currentPackage
      else currentPackage
    else currentPackage
  if strStartsWith trimmed "version:" && currentPackage1.isSome then
    let rest := trimmed.drop 8
    if rest.isEmpty then (deps, currentPackage1)
    else
      let restChars := rest.data
      let afterWs := restChars.dropWhile isJsWs
      let group := if afterWs.isEmpty then restChars.drop (restChars.length - 1) else afterWs
      let version := String.mk (group.filter (fun c => c ≠ '"' ∧ c ≠ Char.ofNat 39))
      match currentPackage1 with
      | some p => (mapSet deps p version, none)
      | none => (deps, currentPackage1)
  else (deps, currentPackage1)

/-- Embeds `PnpmManager.parseLockFile` as a function of the file read:
`none` models `fs.readFile` throwing (caught → empty map); `some content`
is scanned line by line. -/
def pnpmParseLockFile (contentRead : Option String) : List (String × String) :=
  match contentRead with
  | none => []
  | some content => ((strLines content).foldl pnpmStep ([], none)).1

/-! ## Core bindings: `optimize` (src/src/core/bindings.ts lines 25-53)

`optimize` spawns the core binary, then: nonzero exit code → `throw new
Error('Optimize failed: ' + (stderr || 'Unknown error'))`; otherwise the
stdout is passed to `JSON.parse`, whose result is returned after an
unchecked TypeScript `as OptimizeResult` assertion (no runtime shape
validation).  `JSON.parse` itself throws a `SyntaxError` on invalid JSON;
the model uses a fixed message for it since the exact engine message is
irrelevant. -/

/-- The observable result of spawning the core binary (`runCore`). -/
structure CoreResult where
  stdout : String
  stderr : String
  code : Int
deriving Repr, DecidableEq

/-- Embeds the binding function `optimize` as a function of the spawned
core's result. -/
def bindingsOptimize (res : CoreResult) : Except String Json :=
  if res.code ≠ 0 then
    Except.error ("Optimize failed: " ++ (if res.stderr.isEmpty then "Unknown error" else res.stderr))
  else
    match jsonParse res.stdout with
    | none => Except.error "SyntaxError: Unexpected token in JSON"
    | some j => Except.ok j

/-- Whether an `Except` value is an error (a thrown exception). -/
def exceptIsError {ε α : Type} : Except ε α → Bool
  | .error _ => true
  | .ok _ => false

/-! ## Project discovery (src/src/managers/base-manager.ts, `findProjects`)

`findProjects` runs the inner async `searchDir(dir, depth)`:

* `if (depth > 10) return` — the walk's depth guard;
* `fs.readdir` (failure caught → directory skipped);
* a directory holding both the manager's lock file and `package.json` is
  recorded as a project, with dependencies from `parseLockFile`; a failure
  of `fs.readJson(package.json)` (or the subsequent `stat`) is caught at
  this directory's `try`, abandoning the directory including its
  subdirectory loop;
* subdirectories whose name starts with `.` or equals `node_modules` are
  not entered.

The filesystem snapshot is a finite rose tree `Dir`; `readable` models
`fs.readdir` succeeding, `pkgJsonOk` models `fs.readJson`/`fs.stat` on
`package.json` succeeding, and `lockContent` is the text handed to
`parseLockFile` when the directory is recorded. -/

/-- A directory in the scanned filesystem snapshot. -/
inductive Dir where
  | mk (name : String) (fileNames : List String) (subdirs : List Dir)
       (readable : Bool) (pkgJsonOk : Bool) (lockContent : String) : Dir

/-- The directory's entry name. -/
def Dir.name : Dir → String
  | .mk n _ _ _ _ _ => n

/-- A discovered project: root path and parsed dependency map (the
`ProjectInfo` fields that the walk computes from the tree). -/
structure FoundProject (β : Type) where
  path : String
  dependencies : β
  lockFilePath : String
deriving Repr

mutual

/-- Embeds the inner `searchDir(dir, depth)` of
`BasePackageManager.findProjects` (src/src/managers/base-manager.ts lines
61-95), parameterized by the manager's lock-file name and its
`parseLockFile` (the abstract members of the base class). -/
def searchDir {β : Type} (lockName : String) (parse : String → β) :
    Dir → String → Nat → List (FoundProject β)
  | d, dirPath, depth =>
    if depth > 10 then []
    else
      match d with
      | .mk _ files subs readable pkgOk lockContent =>
        if !readable then []
        else
          let entryNames := files ++ subs.map Dir.name
          let hasLockFile := entryNames.contains lockName
          let hasPackageJson := entryNames.contains "package.json"
          if hasLockFile && hasPackageJson && !pkgOk then []
          else
            (if hasLockFile && hasPackageJson then
               [⟨dirPath, parse lockContent, dirPath ++ "/" ++ lockName⟩]
             else [])
            ++ searchSubdirs lockName parse subs dirPath depth

/-- The subdirectory loop of `searchDir`: recurse into each directory
entry whose name does not start with `.` and is not `node_modules`. -/
def searchSubdirs {β : Type} (lockName : String) (parse : String → β) :
    List Dir → String → Nat → List (FoundProject β)
  | [], _, _ => []
  | c :: cs, dirPath, depth =>
      (if !strStartsWith c.name "." && c.name != "node_modules" then
         searchDir lockName parse c (dirPath ++ "/" ++ c.name) (depth + 1)
       else [])
      ++ searchSubdirs lockName parse cs dirPath depth

end

/-- Embeds `findProjects(rootDir)`: start the walk at the root with
depth 0. -/
def findProjects {β : Type} (lockName : String) (parse : String → β)
    (root : Dir) (rootPath : String) : List (FoundProject β) :=
  searchDir lockName parse root rootPath 0

/-- Replace a directory by an empty, contentless directory of the same
name.  Gutting a directory erases everything the walk could observe about
it except its entry name in the parent's listing. -/
def Dir.gut : Dir → Dir
  | .mk n _ _ _ _ _ => .mk n [] [] true true ""

mutual

/-- Gut every directory strictly more than `k` levels below the argument
(`truncBeyond 0` guts the directory itself). -/
def truncBeyond : Nat → Dir → Dir
  | 0, d => d.gut
  | k + 1, .mk n f subs r p lc => .mk n f (truncBeyondList k subs) r p lc

/-- `truncBeyond` mapped over a directory listing. -/
def truncBeyondList : Nat → List Dir → List Dir
  | _, [] => []
  | k, c :: cs => truncBeyond k c :: truncBeyondList k cs

end

mutual

/-- Gut every strict descendant whose name starts with `.` or equals
`node_modules` (the argument itself is kept, as the walk's root is). -/
def gutExcluded : Dir → Dir
  | .mk n f subs r p lc => .mk n f (gutExcludedList subs) r p lc

/-- `gutExcluded` over a directory listing: an excluded entry is gutted
outright, the rest are recursed into. -/
def gutExcludedList : List Dir → List Dir
  | [] => []
  | c :: cs =>
      (if strStartsWith c.name "." || c.name == "node_modules" then c.gut
       else gutExcluded c) :: gutExcludedList cs

end

/-! ## PackageLruCache

Modelled from the spec: the Rust implementation (`core/src/cache.rs`,
`PackageLruCache`) is not part of this source tree.  Spec §4.1: `touch`
marks a package most-recently-used, inserting if absent; after every
`touch`, while `count > maxEntries OR totalBytes > maxBytes`, evict from
the tail (oldest) until both bounds hold; evicted identities are reported,
not deleted — eviction only changes in-cache status, filesystem deletion
is a separate downstream decision. -/

/-- Modelled from the spec: an LRU cache entry (package identity and byte
size), spec §3 `LruEntry`. -/
structure LruEntry where
  identity : String
  sizeBytes : Nat
deriving Repr, DecidableEq

/-- Modelled from the spec: the cache plus the on-disk package set the
cache never touches.  `entries` is in strict recency order, most recent
first. -/
structure LruState where
  entries : List LruEntry
  filesystem : List String
deriving Repr, DecidableEq

/-- Total byte size of the cached entries. -/
def lruTotalBytes (es : List LruEntry) : Nat :=
  (es.map LruEntry.sizeBytes).sum

/-- The eviction loop viewed from the oldest end: on an oldest-first list,
while the entry count exceeds `maxEntries` or the byte total exceeds
`maxBytes`, evict the head (the oldest entry), reporting its identity. -/
def lruEvictOldestFirst (maxEntries maxBytes : Nat) :
    List LruEntry → List LruEntry × List String
  | [] => ([], [])
  | e :: es =>
    if (e :: es).length > maxEntries || lruTotalBytes (e :: es) > maxBytes then
      let p := lruEvictOldestFirst maxEntries maxBytes es
      (p.1, e.identity :: p.2)
    else (e :: es, [])

/-- Modelled from the spec: the post-`touch` eviction loop — while the
entry count exceeds `maxEntries` or the byte total exceeds `maxBytes`,
evict the tail (oldest) entry of the recency-ordered list, reporting its
identity.  Implemented by running the loop on the reversed
(oldest-first) list. -/
def lruEvict (maxEntries maxBytes : Nat) (es : List LruEntry) :
    List LruEntry × List String :=
  let p := lruEvictOldestFirst maxEntries maxBytes es.reverse
  (p.1.reverse, p.2)

/-- Modelled from the spec: `touch(identity, record)` — move the identity
to the most-recent position (inserting if absent, with the record's size),
then run the eviction loop.  Returns the new state and the reported
evicted identities; the filesystem component is untouched. -/
def lruTouch (maxEntries maxBytes : Nat) (s : LruState)
    (identity : String) (sizeBytes : Nat) : LruState × List String :=
  let removed := s.entries.filter (fun e => e.identity ≠ identity)
  let inserted := LruEntry.mk identity sizeBytes :: removed
  let p := lruEvict maxEntries maxBytes inserted
  (⟨p.1, s.filesystem⟩, p.2)

/-- Run a finite sequence of `touch` calls from a state. -/
def lruRun (maxEntries maxBytes : Nat) (s : LruState) :
    List (String × Nat) → LruState
  | [] => s
  | t :: ts =>
      lruRun maxEntries maxBytes (lruTouch maxEntries maxBytes s t.1 t.2).1 ts

/-! ## OptimizationEngine

Modelled from the spec: the Rust implementation (`core/src/optimization.rs`,
`OptimizationEngine`) is not part of this source tree.  Spec §4.4 decision
algorithm per package: `orphaned` when no ProjectRecord references the
package's `(name, version)`; else `old` when stale and neither the
predictor nor the LRU cache says keep; else `duplicate_symlink_candidate`
when symlinking is enabled and an identical-content sibling exists; else
keep.  The size-pressure variant appends the LRU eviction candidates
tagged `size_pressure` when the byte bound is exceeded.
(src/IMPLEMENTATION_SUMMARY.md lines 137-145 states the same decision:
"Remove if orphaned OR (old AND not kept by ML AND not kept by LRU)".) -/

/-- Modelled from the spec: a scanned package record (spec §3
`PackageRecord`); times are in whole days. -/
structure PackageRecord where
  name : String
  version : String
  path : String
  sizeBytes : Nat
  lastAccessDay : Nat
deriving Repr, DecidableEq

/-- Modelled from the spec: a scanned project record with its dependency
map (spec §3 `ProjectRecord`). -/
structure ProjectRecord where
  path : String
  dependencies : List (String × String)
deriving Repr, DecidableEq

/-- Modelled from the spec: the scanner's output (spec §6 `ScanResult`). -/
structure ScanResult where
  packages : List PackageRecord
  projects : List ProjectRecord
deriving Repr

/-- Modelled from the spec: the engine's configuration surface (spec §6). -/
structure EngineConfig where
  preserveDays : Nat
  enableSymlinking : Bool
deriving Repr, DecidableEq

/-- Modelled from the spec: one cleanup-plan item (spec §3
`CleanupPlanItem`). -/
structure CleanupPlanItem where
  target_path : String
  estimated_size_bytes : Nat
  reason : String
deriving Repr, DecidableEq

/-- Modelled from the spec: the engine's plan output (spec §6). -/
structure CleanupPlan where
  items : List CleanupPlanItem
  total_estimated_bytes : Nat
deriving Repr, DecidableEq

/-- A package is orphaned when no project's dependency map references its
`(name, version)` (spec §3, §4.4). -/
def isOrphaned (pkg : PackageRecord) (projects : List ProjectRecord) : Bool :=
  projects.all (fun proj => !proj.dependencies.contains (pkg.name, pkg.version))

/-- Modelled from the spec: the per-package decision of §4.4, in order:
`orphaned` first; else `old` under staleness and two do-not-keep signals;
else `duplicate_symlink_candidate`; else keep (`none`).  The predictor and
LRU keep signals and the duplicate-sibling test are the engine's
collaborators, passed as functions. -/
def decidePackage (cfg : EngineConfig) (nowDay : Nat)
    (mlKeep lruKeep hasDuplicate : PackageRecord → Bool)
    (projects : List ProjectRecord) (pkg : PackageRecord) :
    Option CleanupPlanItem :=
  if isOrphaned pkg projects then
    some ⟨pkg.path, pkg.sizeBytes, "orphaned"⟩
  else if nowDay - pkg.lastAccessDay > cfg.preserveDays
          && !mlKeep pkg && !lruKeep pkg then
    some ⟨pkg.path, pkg.sizeBytes, "old"⟩
  else if cfg.enableSymlinking && hasDuplicate pkg then
    some ⟨pkg.path, pkg.sizeBytes, "duplicate_symlink_candidate"⟩
  else none

/-- Modelled from the spec: `planCleanup(scanResult, config)` — apply the
per-package decision to every scanned package, append the size-pressure
items when the LRU byte bound is exceeded, and total the estimated
bytes. -/
def planCleanup (cfg : EngineConfig) (nowDay : Nat)
    (mlKeep lruKeep hasDuplicate : PackageRecord → Bool)
    (scan : ScanResult) (lruBytesExceeded : Bool)
    (evictionCandidates : List PackageRecord) : CleanupPlan :=
  let perPackage := scan.packages.filterMap
    (decidePackage cfg nowDay mlKeep lruKeep hasDuplicate scan.projects)
  let pressure :=
    if lruBytesExceeded then
      evictionCandidates.map (fun p => CleanupPlanItem.mk p.path p.sizeBytes "size_pressure")
    else []
  let items := perPackage ++ pressure
  ⟨items, (items.map CleanupPlanItem.estimated_size_bytes).sum⟩

/-! ## QuarantineManager

Modelled from the spec: the Rust implementation is not part of this source
tree.  Spec §4.5: `quarantine(targets)` computes a checksum, moves the
directory into the quarantine root under a fresh unique id, persists a
record, and verifies the post-move checksum (a mismatch leaves the data in
quarantine flagged suspect); `rollback(id)` locates the active record,
moves the data back to the original path and marks `rolled_back`, failing
with `NotFound` when no active record matches and with `PathConflict` when
the original path is now occupied (never overwriting live data, no partial
rollback). -/

/-- Byte content of a quarantined directory, as a byte list. -/
abbrev Content := List Nat

/-- Modelled from the spec: the content checksum (SHA-256 in the
implementation; any deterministic content function serves the model). -/
def checksumOf (c : Content) : Nat :=
  c.foldl (fun a b => a * 257 + b + 1) 7

/-- Modelled from the spec: quarantine record states (§4.5: `active` →
`rolled_back`, terminal; verification failure flags the record
suspect). -/
inductive QStatus where
  | active
  | rolled_back
  | suspect
deriving Repr, DecidableEq

/-- Modelled from the spec: a persisted quarantine record (spec §3). -/
structure QuarantineRecord where
  id : String
  originalPath : String
  storagePath : String
  sizeBytes : Nat
  checksum : Nat
  status : QStatus
deriving Repr, DecidableEq

/-- Modelled from the spec: the manager's world — live filesystem paths,
the quarantine storage area, and the persisted record index. -/
structure QuarantineState where
  liveFs : List (String × Content)
  quarantineFs : List (String × Content)
  records : List QuarantineRecord
deriving Repr, DecidableEq

/-- Look up a path in a path→content map (first match). -/
def fsLookup (fs : List (String × Content)) (p : String) : Option Content :=
  (fs.find? (fun e => e.1 == p)).map (·.2)

/-- Remove a path from a path→content map. -/
def fsRemove (fs : List (String × Content)) (p : String) :
    List (String × Content) :=
  fs.filter (fun e => e.1 ≠ p)

/-- Outcome of quarantining one target. -/
inductive QuarantineOutcome where
  | ok (record : QuarantineRecord)
  | targetMissing
  | integrityFailure
deriving Repr, DecidableEq

/-- Modelled from the spec: quarantine one target under a fresh unique id —
checksum, move (remove from the live filesystem, store under the
quarantine root), persist the record, then verify the post-move checksum;
a mismatch leaves the moved data in quarantine with the record flagged
suspect. -/
def quarantineOne (s : QuarantineState) (freshId : String) (target : String) :
    QuarantineOutcome × QuarantineState :=
  match fsLookup s.liveFs target with
  | none => (.targetMissing, s)
  | some content =>
    let sum := checksumOf content
    let storagePath := "~/.packagepurge/quarantine/" ++ freshId
    let live' := fsRemove s.liveFs target
    let quar' := (storagePath, content) :: s.quarantineFs
    if checksumOf content = sum then
      let record : QuarantineRecord :=
        ⟨freshId, target, storagePath, content.length, sum, .active⟩
      (.ok record, ⟨live', quar', record :: s.records⟩)
    else
      let record : QuarantineRecord :=
        ⟨freshId, target, storagePath, content.length, sum, .suspect⟩
      (.integrityFailure, ⟨live', quar', record :: s.records⟩)

/-- Outcome of a rollback request. -/
inductive RollbackOutcome where
  | ok (id : String)
  | notFound
  | pathConflict
deriving Repr, DecidableEq

/-- Modelled from the spec: `rollback(id)` — locate the active record with
that id (`NotFound` otherwise), refuse to overwrite an occupied original
path (`PathConflict`), else move the quarantined data back and mark the
record `rolled_back`.  Both failures return the state unchanged: no
partial rollback is performed.  (A record whose stored data is absent from
the quarantine area cannot be restored and reports `NotFound`; the model
never produces such a record.) -/
def rollbackById (s : QuarantineState) (id : String) :
    RollbackOutcome × QuarantineState :=
  match s.records.find? (fun r => r.id == id && r.status == QStatus.active) with
  | none => (.notFound, s)
  | some r =>
    if (fsLookup s.liveFs r.originalPath).isSome then (.pathConflict, s)
    else
      match fsLookup s.quarantineFs r.storagePath with
      | none => (.notFound, s)
      | some content =>
        let live' := (r.originalPath, content) :: s.liveFs
        let quar' := fsRemove s.quarantineFs r.storagePath
        let records' := s.records.map
          (fun q => if q.id == id then { q with status := QStatus.rolled_back } else q)
        (.ok id, ⟨live', quar', records'⟩)

/-! ## SemanticDeduplication

Modelled from the spec: the Rust implementation (`core/src/symlink.rs`,
`SemanticDeduplication.deduplicate_package`) is not part of this source
tree.  Spec §4.3: fingerprint the payload; canonical path
`{storeRoot}/{name}/{version}/{fingerprint}`; populate the canonical entry
by hard-linking when absent; when the package path is not already a
symlink, atomically swap it for a symlink to the canonical path; re-running
on identical content is a no-op. -/

/-- A filesystem node as the deduplicator sees it: a real directory with a
payload, or a symlink to another path. -/
inductive FsNode where
  | real (content : Content)
  | symlink (target : String)
deriving Repr, DecidableEq

/-- Look up a path in the deduplicator's filesystem (first match). -/
def nodeLookup (fs : List (String × FsNode)) (p : String) : Option FsNode :=
  (fs.find? (fun e => e.1 == p)).map (·.2)

/-- Modelled from the spec: the order-independent content fingerprint of a
package payload (a cryptographic hash in the implementation). -/
def fingerprintOf (c : Content) : Nat :=
  c.foldl (fun a b => a * 263 + b + 3) 11

/-- The canonical store path `{storeRoot}/{name}/{version}/{fingerprint}`
(spec §4.3 step 2). -/
def canonicalPathFor (storeRoot name version : String) (fp : Nat) : String :=
  storeRoot ++ "/" ++ name ++ "/" ++ version ++ "/" ++ toString fp

/-- Read the payload at a path, resolving a symlink to its target's real
content; `none` models a hashing/filesystem failure (missing path or
dangling link). -/
def readPayload (fs : List (String × FsNode)) (p : String) : Option Content :=
  match nodeLookup fs p with
  | some (.real c) => some c
  | some (.symlink t) =>
    match nodeLookup fs t with
    | some (.real c) => some c
    | _ => none
  | none => none

/-- Outcome of `deduplicate`. -/
inductive DedupOutcome where
  | ok (canonicalPath : String)
  | dedupError
deriving Repr, DecidableEq

/-- Modelled from the spec: `deduplicate(packagePath, name, version)` —
fingerprint the payload (failure → `DedupError`); populate the canonical
entry when absent (hard-link, sharing the content); when the package path
is not already a symlink, atomically swap it for a symlink to the
canonical path (an existing symlink is detected and left alone). -/
def deduplicate (storeRoot : String) (fs : List (String × FsNode))
    (packagePath name version : String) :
    DedupOutcome × List (String × FsNode) :=
  match readPayload fs packagePath with
  | none => (.dedupError, fs)
  | some content =>
    let fp := fingerprintOf content
    let canonical := canonicalPathFor storeRoot name version fp
    let fs1 := match nodeLookup fs canonical with
      | none => (canonical, FsNode.real content) :: fs
      | some _ => fs
    let fs2 := match nodeLookup fs1 packagePath with
      | some (.real _) =>
          fs1.map (fun e => if e.1 == packagePath then (packagePath, FsNode.symlink canonical) else e)
      | _ => fs1
    (.ok canonical, fs2)

/-- Number of entries stored under a path in the deduplicator's
filesystem. -/
def countKey (fs : List (String × FsNode)) (p : String) : Nat :=
  (fs.filter (fun e => e.1 == p)).length

end PackagePurge

namespace PackagePurge

/-- C6: the CLI `clean` action, as written, never forwards the `--fast`
option to the core binary: the argument vector it spawns is
`['quarantine', ...targets]` whether or not the user passed `--fast`.
Evaluated at the failing input `purge clean --targets /tmp/pkg --fast`,
the spawned arguments contain no fast-mode flag, contradicting the
option's own help text ("Skip SHA256 verification for faster cleanup"). -/
theorem clean_fast_flag_never_forwarded :
    buildCleanCoreArgs ["/tmp/pkg"] true = ["quarantine", "/tmp/pkg"] ∧
    "--fast" ∉ buildCleanCoreArgs ["/tmp/pkg"] true ∧
    ∀ (targets : List String) (fast : Bool),
      buildCleanCoreArgs targets fast = buildCleanCoreArgs targets false :=
  ⟨rfl, by decide, fun _ _ => rfl⟩

/-- C7: with no configuration file and no `package.json` `packagepurge`
key, `loadConfig` returns the documented defaults (`preserveDays = 90`,
`lruMaxPackages = 1000`, `lruMaxSizeBytes = 10·10^9`,
`enableSymlinking = false`, `enableMl = false`) with `source = null`, and
the `optimize` CLI command supplies the same defaults 90 / 1000 /
10000000000 for its `--preserve-days`, `--lru-max-packages` and
`--lru-max-size-bytes` options. -/
theorem load_config_defaults :
    loadConfig none none = (DEFAULT_CONFIG, none) ∧
    DEFAULT_CONFIG.preserveDays = 90 ∧
    DEFAULT_CONFIG.lruMaxPackages = 1000 ∧
    DEFAULT_CONFIG.lruMaxSizeBytes = 10 * 10 ^ 9 ∧
    DEFAULT_CONFIG.enableSymlinking = false ∧
    DEFAULT_CONFIG.enableMl = false ∧
    buildOptimizeCoreArgs none none none false false [] =
      ["optimize", "--preserve-days", "90", "--lru-max-packages", "1000",
       "--lru-max-size-bytes", "10000000000"] :=
  ⟨rfl, rfl, rfl, by decide, rfl, rfl, rfl⟩

/-- C8 (counterexample): the binding `optimize` does not throw exactly on
nonzero exit codes — on exit code 0 with stdout that is not valid JSON
(here the empty string), `JSON.parse` throws, so `optimize` rejects even
though the core exited with 0. -/
theorem optimize_zero_exit_can_throw :
    bindingsOptimize ⟨"", "", 0⟩ =
      Except.error "SyntaxError: Unexpected token in JSON" ∧
    (CoreResult.mk "" "" 0).code = 0 :=
  ⟨rfl, rfl⟩

/-- C8 (amended): the binding `optimize` rejects exactly when the core
exits nonzero or the exit-zero stdout fails to parse as JSON; on exit code
0 with stdout that parses, it returns the parsed value (the TypeScript
`as OptimizeResult` assertion performs no runtime shape check). -/
theorem optimize_error_characterization (res : CoreResult) (j : Json) :
    (exceptIsError (bindingsOptimize res) = true ↔
      res.code ≠ 0 ∨ jsonParse res.stdout = none) ∧
    (res.code = 0 → jsonParse res.stdout = some j →
      bindingsOptimize res = Except.ok j) := by
  constructor
  · by_cases hc : res.code = 0
    · cases h : jsonParse res.stdout <;>
        simp [bindingsOptimize, exceptIsError, hc, h]
    · simp [bindingsOptimize, exceptIsError, hc]
  · intro hc hp
    simp [bindingsOptimize, hc, hp]

/-- C8 witness: the amended characterization evaluated at concrete core
results — exit 0 with stdout `[]` returns the parsed empty array, and exit
1 rejects. -/
theorem optimize_error_characterization_witness :
    bindingsOptimize ⟨"[]", "", 0⟩ = Except.ok (Json.arr []) ∧
    exceptIsError (bindingsOptimize ⟨"x", "boom", 1⟩) = true :=
  ⟨(optimize_error_characterization ⟨"[]", "", 0⟩ (Json.arr [])).2 rfl rfl,
   ((optimize_error_characterization ⟨"x", "boom", 1⟩ Json.null).1).mpr
     (Or.inl (by decide))⟩

/-- C1: an orphaned package — one whose `(name, version)` is referenced by
no project's dependency map — always yields a plan item with reason
`orphaned`, for every configuration, clock, predictor keep signal
(including constantly-keep, the Bool image of a 1.0 score), LRU keep
signal, duplicate test and size-pressure input: the `orphaned` branch is
decided first and consults none of them. -/
theorem orphaned_always_planned (cfg : EngineConfig) (nowDay : Nat)
    (mlKeep lruKeep hasDuplicate : PackageRecord → Bool)
    (scan : ScanResult) (lruBytesExceeded : Bool)
    (evictionCandidates : List PackageRecord) (pkg : PackageRecord)
    (hmem : pkg ∈ scan.packages)
    (horph : isOrphaned pkg scan.projects = true) :
    CleanupPlanItem.mk pkg.path pkg.sizeBytes "orphaned" ∈
      (planCleanup cfg nowDay mlKeep lruKeep hasDuplicate scan
        lruBytesExceeded evictionCandidates).items := by
  unfold planCleanup
  refine List.mem_append_left _ (List.mem_filterMap.mpr ⟨pkg, hmem, ?_⟩)
  simp [decidePackage, horph]

/-- C1 witness: the spec §8 scenario — `lodash@4.17.21`, 50MB, last
accessed 120 days ago, referenced by zero projects, preserveDays 90,
predictor and LRU both saying keep — is planned with reason `orphaned` and
`estimated_size_bytes = 52428800`. -/
theorem orphaned_always_planned_witness :
    (PackageRecord.mk "lodash" "4.17.21" "/cache/lodash@4.17.21" 52428800 0) ∈
      (ScanResult.mk [⟨"lodash", "4.17.21", "/cache/lodash@4.17.21", 52428800, 0⟩] []).packages ∧
    isOrphaned ⟨"lodash", "4.17.21", "/cache/lodash@4.17.21", 52428800, 0⟩
      (ScanResult.mk [⟨"lodash", "4.17.21", "/cache/lodash@4.17.21", 52428800, 0⟩] []).projects = true ∧
    CleanupPlanItem.mk "/cache/lodash@4.17.21" 52428800 "orphaned" ∈
      (planCleanup ⟨90, false⟩ 120 (fun _ => true) (fun _ => true) (fun _ => false)
        ⟨[⟨"lodash", "4.17.21", "/cache/lodash@4.17.21", 52428800, 0⟩], []⟩
        false []).items :=
  ⟨by decide, by decide,
   orphaned_always_planned ⟨90, false⟩ 120 (fun _ => true) (fun _ => true)
     (fun _ => false)
     ⟨[⟨"lodash", "4.17.21", "/cache/lodash@4.17.21", 52428800, 0⟩], []⟩
     false [] ⟨"lodash", "4.17.21", "/cache/lodash@4.17.21", 52428800, 0⟩
     (by decide) (by decide)⟩

/-- The eviction loop's postcondition on an oldest-first list: both bounds
hold when it stops. -/
theorem lruEvictOldestFirst_bounds (maxEntries maxBytes : Nat) :
    ∀ es : List LruEntry,
      (lruEvictOldestFirst maxEntries maxBytes es).1.length ≤ maxEntries ∧
      lruTotalBytes (lruEvictOldestFirst maxEntries maxBytes es).1 ≤ maxBytes := by
  intro es
  induction es with
  | nil => simp [lruEvictOldestFirst, lruTotalBytes]
  | cons e es ih =>
    rw [lruEvictOldestFirst]
    split
    · exact ih
    · next h =>
      simp only [Bool.or_eq_true, not_or, decide_eq_true_eq, Nat.not_lt] at h
      exact ⟨h.1, h.2⟩

/-- `lruTotalBytes` is invariant under list reversal. -/
theorem lruTotalBytes_reverse (l : List LruEntry) :
    lruTotalBytes l.reverse = lruTotalBytes l := by
  simp [lruTotalBytes, List.sum_reverse]

/-- The eviction loop's postcondition on the recency-ordered list. -/
theorem lruEvict_bounds (maxEntries maxBytes : Nat) (es : List LruEntry) :
    (lruEvict maxEntries maxBytes es).1.length ≤ maxEntries ∧
    lruTotalBytes (lruEvict maxEntries maxBytes es).1 ≤ maxBytes := by
  have h := lruEvictOldestFirst_bounds maxEntries maxBytes es.reverse
  unfold lruEvict
  exact ⟨by simpa using h.1, by simpa [lruTotalBytes_reverse] using h.2⟩

/-- Running a touch sequence splits at an append. -/
theorem lruRun_append (maxEntries maxBytes : Nat) (xs ys : List (String × Nat)) :
    ∀ s : LruState,
      lruRun maxEntries maxBytes s (xs ++ ys) =
      lruRun maxEntries maxBytes (lruRun maxEntries maxBytes s xs) ys := by
  induction xs with
  | nil => intro s; simp [lruRun]
  | cons x xs ih => intro s; simp [lruRun, ih]

/-- `touch` never modifies the filesystem component. -/
theorem lruTouch_filesystem (maxEntries maxBytes : Nat) (s : LruState)
    (identity : String) (sizeBytes : Nat) :
    ((lruTouch maxEntries maxBytes s identity sizeBytes).1).filesystem =
      s.filesystem := rfl

/-- A touch sequence never modifies the filesystem component. -/
theorem lruRun_filesystem (maxEntries maxBytes : Nat)
    (ts : List (String × Nat)) :
    ∀ s : LruState,
      (lruRun maxEntries maxBytes s ts).filesystem = s.filesystem := by
  induction ts with
  | nil => intro s; rfl
  | cons t ts ih => intro s; rw [lruRun, ih, lruTouch_filesystem]

/-- C2: for every cache with `maxEntries ≥ 1` and `maxBytes ≥ 1` and every
finite sequence of `touch` calls, after each `touch` completes (the state
after running any sequence that ends in a touch) the entry count is at
most `maxEntries` and the byte total at most `maxBytes`, and the
filesystem is exactly as it started: eviction only changes in-cache
status. -/
theorem lru_bounds_after_each_touch (maxEntries maxBytes : Nat)
    (hE : 1 ≤ maxEntries) (hB : 1 ≤ maxBytes)
    (s0 : LruState) (touches : List (String × Nat)) (t : String × Nat) :
    (lruRun maxEntries maxBytes s0 (touches ++ [t])).entries.length ≤ maxEntries ∧
    lruTotalBytes (lruRun maxEntries maxBytes s0 (touches ++ [t])).entries ≤ maxBytes ∧
    (lruRun maxEntries maxBytes s0 (touches ++ [t])).filesystem = s0.filesystem := by
  rw [lruRun_append]
  have hfs₁ := lruRun_filesystem maxEntries maxBytes touches s0
  have hb := lruEvict_bounds maxEntries maxBytes
    (LruEntry.mk t.1 t.2 ::
      (lruRun maxEntries maxBytes s0 touches).entries.filter
        (fun e => e.identity ≠ t.1))
  simp only [lruRun, lruTouch]
  exact ⟨hb.1, hb.2, hfs₁⟩

/-- C2 witness: `maxEntries = 2`, `maxBytes = 100`, touches
A(10) B(20) C(30) — after the final touch the bounds hold, the filesystem
is untouched, and the cache holds C,B (A, the oldest, was evicted first,
matching the spec §8 eviction-order scenario). -/
theorem lru_bounds_after_each_touch_witness :
    ((1 : Nat) ≤ 2 ∧ (1 : Nat) ≤ 100) ∧
    ((lruRun 2 100 ⟨[], ["/disk/a"]⟩ ([("a", 10), ("b", 20)] ++ [("c", 30)])).entries.length ≤ 2 ∧
      lruTotalBytes (lruRun 2 100 ⟨[], ["/disk/a"]⟩ ([("a", 10), ("b", 20)] ++ [("c", 30)])).entries ≤ 100 ∧
      (lruRun 2 100 ⟨[], ["/disk/a"]⟩ ([("a", 10), ("b", 20)] ++ [("c", 30)])).filesystem =
        (LruState.mk [] ["/disk/a"]).filesystem) ∧
    (lruRun 2 100 ⟨[], ["/disk/a"]⟩ [("a", 10), ("b", 20), ("c", 30)]).entries =
      [⟨"c", 30⟩, ⟨"b", 20⟩] :=
  ⟨⟨by decide, by decide⟩,
   lru_bounds_after_each_touch 2 100 (by decide) (by decide)
     ⟨[], ["/disk/a"]⟩ [("a", 10), ("b", 20)] ("c", 30),
   by decide⟩

/-- Removing a path from a path→content map makes it unfindable. -/
theorem fsLookup_fsRemove_self (fs : List (String × Content)) (p : String) :
    fsLookup (fsRemove fs p) p = none := by
  have hfind : (fsRemove fs p).find? (fun e => e.1 == p) = none := by
    rw [List.find?_eq_none]
    intro a ha
    rcases List.mem_filter.mp ha with ⟨-, hpred⟩
    simp only [decide_eq_true_eq] at hpred
    simp [hpred]
  simp [fsLookup, hfind]

/-- A removed path is a member of no remaining entry. -/
theorem fsRemove_not_mem_self (fs : List (String × Content)) (p : String)
    (x : Content) : (p, x) ∉ fsRemove fs p := by
  intro hx
  rcases List.mem_filter.mp hx with ⟨-, hpred⟩
  simp at hpred

/-- C5: a rollback request that matches no active record fails with
`NotFound`, and one whose original path is now occupied fails with
`PathConflict`; in both cases the returned state is exactly the input
state — no filesystem mutation, no partial rollback, nothing
overwritten. -/
theorem rollback_failure_no_mutation (s : QuarantineState) (id : String) :
    (s.records.find? (fun r => r.id == id && r.status == QStatus.active) = none →
      rollbackById s id = (RollbackOutcome.notFound, s)) ∧
    (∀ r : QuarantineRecord,
      s.records.find? (fun q => q.id == id && q.status == QStatus.active) = some r →
      (fsLookup s.liveFs r.originalPath).isSome = true →
      rollbackById s id = (RollbackOutcome.pathConflict, s)) := by
  constructor
  · intro h
    simp [rollbackById, h]
  · intro r h hocc
    simp [rollbackById, h, hocc]

/-- C5 witness: `rollback(id="unknown")` on an empty record index fails
with `NotFound` leaving the state untouched, and a rollback whose original
path is occupied fails with `PathConflict` leaving the state untouched. -/
theorem rollback_failure_no_mutation_witness :
    rollbackById ⟨[], [], []⟩ "unknown" = (RollbackOutcome.notFound, ⟨[], [], []⟩) ∧
    rollbackById
        ⟨[("/p", [1])], [("~/.packagepurge/quarantine/q1", [2])],
         [⟨"q1", "/p", "~/.packagepurge/quarantine/q1", 1, checksumOf [2], QStatus.active⟩]⟩
        "q1" =
      (RollbackOutcome.pathConflict,
        ⟨[("/p", [1])], [("~/.packagepurge/quarantine/q1", [2])],
         [⟨"q1", "/p", "~/.packagepurge/quarantine/q1", 1, checksumOf [2], QStatus.active⟩]⟩) :=
  ⟨(rollback_failure_no_mutation ⟨[], [], []⟩ "unknown").1 (by decide),
   (rollback_failure_no_mutation
     ⟨[("/p", [1])], [("~/.packagepurge/quarantine/q1", [2])],
      [⟨"q1", "/p", "~/.packagepurge/quarantine/q1", 1, checksumOf [2], QStatus.active⟩]⟩
     "q1").2
     ⟨"q1", "/p", "~/.packagepurge/quarantine/q1", 1, checksumOf [2], QStatus.active⟩
     (by decide) (by decide)⟩

/-- C3: for every target that `quarantine` succeeds on, rolling back by
the returned record's id succeeds and restores the original path with byte
content identical to what was quarantined (hence an identical checksum,
equal to the record's stored checksum), and the record index thereafter
reports the record with terminal status `rolled_back`. -/
theorem quarantine_rollback_roundtrip (s : QuarantineState)
    (freshId target : String) (r : QuarantineRecord) (s' : QuarantineState)
    (hq : quarantineOne s freshId target = (QuarantineOutcome.ok r, s')) :
    ∃ s'' : QuarantineState,
      rollbackById s' r.id = (RollbackOutcome.ok r.id, s'') ∧
      fsLookup s''.liveFs target = fsLookup s.liveFs target ∧
      (fsLookup s''.liveFs target).map checksumOf = some r.checksum ∧
      s''.records.find? (fun q => q.id == r.id) =
        some { r with status := QStatus.rolled_back } := by
  cases hlook : fsLookup s.liveFs target with
  | none => simp [quarantineOne, hlook] at hq
  | some content =>
    simp only [quarantineOne, hlook, eq_self_iff_true, if_true, Prod.mk.injEq,
      QuarantineOutcome.ok.injEq] at hq
    obtain ⟨hr, hs'⟩ := hq
    subst hs'
    subst hr
    refine ⟨⟨(target, content) :: fsRemove s.liveFs target,
             fsRemove (("~/.packagepurge/quarantine/" ++ freshId, content) :: s.quarantineFs)
               ("~/.packagepurge/quarantine/" ++ freshId),
             ⟨freshId, target, "~/.packagepurge/quarantine/" ++ freshId,
              content.length, checksumOf content, QStatus.rolled_back⟩ ::
               s.records.map
                 (fun q => if q.id == freshId then { q with status := QStatus.rolled_back } else q)⟩,
           ?_, ?_, ?_, ?_⟩
    · simp [rollbackById, List.find?, fsLookup_fsRemove_self, fsLookup,
        fsRemove_not_mem_self]
    · simp [fsLookup, List.find?, hlook]
    · simp [fsLookup, List.find?]
    · simp [List.find?]

/-- C3 witness: quarantining `/p/lodash` (content bytes `[1,2,3]`) from a
concrete state succeeds, and the round-trip theorem applies to it: the
rollback restores the original path with identical content and checksum
and marks the record `rolled_back`. -/
theorem quarantine_rollback_roundtrip_witness :
    quarantineOne ⟨[("/p/lodash", [1, 2, 3])], [], []⟩ "q1" "/p/lodash" =
      (QuarantineOutcome.ok
        ⟨"q1", "/p/lodash", "~/.packagepurge/quarantine/q1", 3,
         checksumOf [1, 2, 3], QStatus.active⟩,
       ⟨[], [("~/.packagepurge/quarantine/q1", [1, 2, 3])],
        [⟨"q1", "/p/lodash", "~/.packagepurge/quarantine/q1", 3,
          checksumOf [1, 2, 3], QStatus.active⟩]⟩) ∧
    (∃ s'' : QuarantineState,
      rollbackById
          ⟨[], [("~/.packagepurge/quarantine/q1", [1, 2, 3])],
           [⟨"q1", "/p/lodash", "~/.packagepurge/quarantine/q1", 3,
             checksumOf [1, 2, 3], QStatus.active⟩]⟩
          (QuarantineRecord.mk "q1" "/p/lodash" "~/.packagepurge/quarantine/q1" 3
            (checksumOf [1, 2, 3]) QStatus.active).id =
        (RollbackOutcome.ok
          (QuarantineRecord.mk "q1" "/p/lodash" "~/.packagepurge/quarantine/q1" 3
            (checksumOf [1, 2, 3]) QStatus.active).id, s'') ∧
      fsLookup s''.liveFs "/p/lodash" =
        fsLookup (QuarantineState.mk [("/p/lodash", [1, 2, 3])] [] []).liveFs "/p/lodash" ∧
      (fsLookup s''.liveFs "/p/lodash").map checksumOf =
        some (QuarantineRecord.mk "q1" "/p/lodash" "~/.packagepurge/quarantine/q1" 3
          (checksumOf [1, 2, 3]) QStatus.active).checksum ∧
      s''.records.find?
          (fun q => q.id ==
            (QuarantineRecord.mk "q1" "/p/lodash" "~/.packagepurge/quarantine/q1" 3
              (checksumOf [1, 2, 3]) QStatus.active).id) =
        some { QuarantineRecord.mk "q1" "/p/lodash" "~/.packagepurge/quarantine/q1" 3
          (checksumOf [1, 2, 3]) QStatus.active with status := QStatus.rolled_back }) :=
  ⟨by decide,
   quarantine_rollback_roundtrip ⟨[("/p/lodash", [1, 2, 3])], [], []⟩ "q1" "/p/lodash"
     ⟨"q1", "/p/lodash", "~/.packagepurge/quarantine/q1", 3,
      checksumOf [1, 2, 3], QStatus.active⟩
     ⟨[], [("~/.packagepurge/quarantine/q1", [1, 2, 3])],
      [⟨"q1", "/p/lodash", "~/.packagepurge/quarantine/q1", 3,
        checksumOf [1, 2, 3], QStatus.active⟩]⟩
     (by decide)⟩

/-- `nodeLookup` on a cons cell. -/
theorem nodeLookup_cons (k : String) (v : FsNode)
    (fs : List (String × FsNode)) (p : String) :
    nodeLookup ((k, v) :: fs) p = if k == p then some v else nodeLookup fs p := by
  unfold nodeLookup
  cases h : (k == p) <;> simp [List.find?, h]

/-- Looking up a path after every entry under it has been replaced by
`node` yields `node`, provided the path was present. -/
theorem nodeLookup_map_replace (fs : List (String × FsNode)) (p : String)
    (node : FsNode) (h : (nodeLookup fs p).isSome = true) :
    nodeLookup (fs.map (fun e => if e.1 == p then (p, node) else e)) p =
      some node := by
  induction fs with
  | nil => simp [nodeLookup] at h
  | cons e fs ih =>
    obtain ⟨k, v⟩ := e
    by_cases hk : k = p
    · subst hk
      simp [nodeLookup_cons]
    · have hkp : (k == p) = false := beq_eq_false_iff_ne.mpr hk
      rw [nodeLookup_cons, if_neg (by simp [hkp])] at h
      simp only [List.map_cons]
      have hhead : (if ((k, v).1 == p) = true then (p, node) else (k, v)) = (k, v) := by
        simp [hkp]
      rw [hhead, nodeLookup_cons, if_neg (by simp [hkp])]
      exact ih h

/-- A path absent from the filesystem stays absent under the symlink-swap
replacement of a different path. -/
theorem countKey_map_replace_absent (fs : List (String × FsNode))
    (p q : String) (node : FsNode)
    (habs : nodeLookup fs q = none) (hne : p ≠ q) :
    countKey (fs.map (fun e => if e.1 == p then (p, node) else e)) q = 0 := by
  unfold countKey
  rw [List.length_eq_zero, List.filter_eq_nil_iff]
  intro a ha
  rcases List.mem_map.mp ha with ⟨e, he, rfl⟩
  have hfind : fs.find? (fun x => x.1 == q) = none := by
    cases hf : fs.find? (fun x => x.1 == q) with
    | none => rfl
    | some x => simp [nodeLookup, hf] at habs
  have hkeys := List.find?_eq_none.mp hfind
  by_cases hp : (e.1 == p) = true
  · simp only [hp, if_true]
    simpa using hne
  · simp only [hp, Bool.false_eq_true, if_false]
    exact hkeys e he

/-- C4: `deduplicate` is idempotent — on a real package directory whose
canonical entry does not yet exist, the first run creates exactly one
canonical store entry keyed `{name}/{version}/{fingerprint}` and swaps the
package path for a symlink to it, and a second run with identical content
returns the same canonical target and leaves the filesystem exactly as it
was (the already-correct symlink is detected and left alone). -/
theorem deduplicate_idempotent (storeRoot : String)
    (fs : List (String × FsNode)) (packagePath name version : String)
    (content : Content)
    (hpkg : nodeLookup fs packagePath = some (FsNode.real content))
    (hcanon : nodeLookup fs
      (canonicalPathFor storeRoot name version (fingerprintOf content)) = none)
    (hne : packagePath ≠ canonicalPathFor storeRoot name version (fingerprintOf content)) :
    (deduplicate storeRoot fs packagePath name version).1 =
      DedupOutcome.ok (canonicalPathFor storeRoot name version (fingerprintOf content)) ∧
    nodeLookup (deduplicate storeRoot fs packagePath name version).2 packagePath =
      some (FsNode.symlink (canonicalPathFor storeRoot name version (fingerprintOf content))) ∧
    countKey (deduplicate storeRoot fs packagePath name version).2
      (canonicalPathFor storeRoot name version (fingerprintOf content)) = 1 ∧
    deduplicate storeRoot (deduplicate storeRoot fs packagePath name version).2
        packagePath name version =
      (DedupOutcome.ok (canonicalPathFor storeRoot name version (fingerprintOf content)),
       (deduplicate storeRoot fs packagePath name version).2) := by
  set canonical := canonicalPathFor storeRoot name version (fingerprintOf content) with hcan
  set fs2 : List (String × FsNode) :=
    (canonical, FsNode.real content) ::
      fs.map (fun e => if e.1 == packagePath then (packagePath, FsNode.symlink canonical) else e)
    with hfs2def
  have hread : readPayload fs packagePath = some content := by
    simp [readPayload, hpkg]
  have hnecanon : ¬canonical = packagePath := Ne.symm hne
  have hcaneq : (canonical == packagePath) = false :=
    beq_eq_false_iff_ne.mpr (Ne.symm hne)
  -- the first run produces the canonical entry and the swapped symlink
  have hrun1 : deduplicate storeRoot fs packagePath name version =
      (DedupOutcome.ok canonical, fs2) := by
    unfold deduplicate
    rw [hread]
    simp only [← hcan, hcanon]
    rw [nodeLookup_cons]
    rw [if_neg (show ¬(canonical == packagePath) = true by
      simp only [beq_iff_eq]
      exact hnecanon)]
    rw [hpkg]
    simp [hfs2def, hcaneq, hnecanon]
  -- the package path is now a symlink to the canonical entry
  have hlink : nodeLookup fs2 packagePath = some (FsNode.symlink canonical) := by
    rw [hfs2def, nodeLookup_cons, if_neg (show ¬(canonical == packagePath) = true by simp only [beq_iff_eq]; exact hnecanon)]
    exact nodeLookup_map_replace fs packagePath _ (by simp [hpkg])
  have hcanlook : nodeLookup fs2 canonical = some (FsNode.real content) := by
    rw [hfs2def, nodeLookup_cons, if_pos (show (canonical == canonical) = true by simp)]
  refine ⟨by rw [hrun1], by rw [hrun1]; exact hlink, ?_, ?_⟩
  · rw [hrun1]
    show countKey fs2 canonical = 1
    rw [hfs2def]
    unfold countKey
    have h0 := countKey_map_replace_absent fs packagePath canonical
      (FsNode.symlink canonical) hcanon hne
    unfold countKey at h0
    rw [List.filter_cons_of_pos (by simp), List.length_cons, h0]
  · -- the second run: the payload resolves through the symlink to the same
    -- content, the canonical entry exists, the symlink is left alone
    have hread2 : readPayload fs2 packagePath = some content := by
      simp [readPayload, hlink, hcanlook]
    rw [hrun1]
    show deduplicate storeRoot fs2 packagePath name version = (DedupOutcome.ok canonical, fs2)
    unfold deduplicate
    rw [hread2]
    simp only [← hcan]
    rw [hcanlook, hlink]

/-- C4 witness: deduplicating a concrete `react@18.2.0` payload (bytes
`[9,9]`): the hypotheses hold by evaluation and the idempotence theorem
applies — one canonical entry, a symlink both times, second run a
no-op. -/
theorem deduplicate_idempotent_witness :
    nodeLookup [("/proj/node_modules/react", FsNode.real [9, 9])]
      "/proj/node_modules/react" = some (FsNode.real [9, 9]) ∧
    nodeLookup [("/proj/node_modules/react", FsNode.real [9, 9])]
      (canonicalPathFor "~/.packagepurge/global_store" "react" "18.2.0"
        (fingerprintOf [9, 9])) = none ∧
    ((deduplicate "~/.packagepurge/global_store"
        [("/proj/node_modules/react", FsNode.real [9, 9])]
        "/proj/node_modules/react" "react" "18.2.0").1 =
      DedupOutcome.ok (canonicalPathFor "~/.packagepurge/global_store" "react" "18.2.0"
        (fingerprintOf [9, 9])) ∧
     nodeLookup (deduplicate "~/.packagepurge/global_store"
        [("/proj/node_modules/react", FsNode.real [9, 9])]
        "/proj/node_modules/react" "react" "18.2.0").2 "/proj/node_modules/react" =
      some (FsNode.symlink (canonicalPathFor "~/.packagepurge/global_store" "react" "18.2.0"
        (fingerprintOf [9, 9]))) ∧
     countKey (deduplicate "~/.packagepurge/global_store"
        [("/proj/node_modules/react", FsNode.real [9, 9])]
        "/proj/node_modules/react" "react" "18.2.0").2
      (canonicalPathFor "~/.packagepurge/global_store" "react" "18.2.0"
        (fingerprintOf [9, 9])) = 1 ∧
     deduplicate "~/.packagepurge/global_store"
        (deduplicate "~/.packagepurge/global_store"
          [("/proj/node_modules/react", FsNode.real [9, 9])]
          "/proj/node_modules/react" "react" "18.2.0").2
        "/proj/node_modules/react" "react" "18.2.0" =
      (DedupOutcome.ok (canonicalPathFor "~/.packagepurge/global_store" "react" "18.2.0"
        (fingerprintOf [9, 9])),
       (deduplicate "~/.packagepurge/global_store"
          [("/proj/node_modules/react", FsNode.real [9, 9])]
          "/proj/node_modules/react" "react" "18.2.0").2)) :=
  ⟨by decide, by decide,
   deduplicate_idempotent "~/.packagepurge/global_store"
     [("/proj/node_modules/react", FsNode.real [9, 9])]
     "/proj/node_modules/react" "react" "18.2.0" [9, 9]
     (by decide) (by decide) (by decide)⟩

/-- Truncation preserves a directory's entry name. -/
theorem truncBeyond_name (k : Nat) (c : Dir) :
    (truncBeyond k c).name = c.name := by
  cases k with
  | zero => cases c; rfl
  | succ k => cases c; rfl

/-- The walk never reads anything more than 10 levels below its starting
depth: gutting every directory deeper than `k` levels leaves the walk's
result unchanged whenever `depth + k ≥ 11`. -/
theorem searchDir_truncBeyond {β : Type} (lockName : String) (parse : String → β) :
    ∀ (k : Nat) (d : Dir) (dirPath : String) (depth : Nat), 11 ≤ depth + k →
      searchDir lockName parse (truncBeyond k d) dirPath depth =
      searchDir lockName parse d dirPath depth := by
  intro k
  induction k with
  | zero =>
    intro d dirPath depth h
    have hd : depth > 10 := by omega
    cases d
    simp [searchDir, Dir.gut, truncBeyond, hd]
  | succ k ih =>
    intro d dirPath depth h
    by_cases hd : depth > 10
    · cases d
      simp [searchDir, truncBeyond, hd]
    · cases d with
      | mk n f subs r p lc =>
        have hnames : (truncBeyondList k subs).map Dir.name = subs.map Dir.name := by
          induction subs with
          | nil => rfl
          | cons c cs ihc => simp [truncBeyondList, truncBeyond_name, ihc]
        have hsubs : ∀ (ds : List Dir) (dp : String),
            searchSubdirs lockName parse (truncBeyondList k ds) dp depth =
            searchSubdirs lockName parse ds dp depth := by
          intro ds
          induction ds with
          | nil => intro dp; rfl
          | cons c cs ihc =>
            intro dp
            show searchSubdirs lockName parse (truncBeyond k c :: truncBeyondList k cs) dp depth = _
            rw [searchSubdirs, searchSubdirs]
            rw [truncBeyond_name, ihc]
            by_cases hc : (!strStartsWith c.name "." && c.name != "node_modules") = true
            · rw [if_pos hc, if_pos hc, ih c _ (depth + 1) (by omega)]
            · rw [if_neg hc, if_neg hc]
        rw [truncBeyond]
        rw [searchDir, searchDir]
        simp only [hd, if_false, hnames, hsubs]

/-- Gutting preserves a directory's entry name. -/
theorem gut_name (c : Dir) : (Dir.gut c).name = c.name := by
  cases c; rfl

/-- `gutExcluded` preserves a directory's entry name. -/
theorem gutExcluded_name (c : Dir) : (gutExcluded c).name = c.name := by
  cases c; rfl

/-- The walk never descends into a directory named `node_modules` or one
whose name starts with `.`: gutting every such strict descendant leaves
the walk's result unchanged. -/
theorem searchDir_gutExcluded {β : Type} (lockName : String) (parse : String → β) :
    ∀ (k : Nat) (d : Dir) (dirPath : String) (depth : Nat), 11 ≤ depth + k →
      searchDir lockName parse (gutExcluded d) dirPath depth =
      searchDir lockName parse d dirPath depth := by
  intro k
  induction k with
  | zero =>
    intro d dirPath depth h
    have hd : depth > 10 := by omega
    cases d
    simp [searchDir, gutExcluded, hd]
  | succ k ih =>
    intro d dirPath depth h
    by_cases hd : depth > 10
    · cases d
      simp [searchDir, gutExcluded, hd]
    · cases d with
      | mk n f subs r p lc =>
        have hname : ∀ c : Dir,
            (if strStartsWith c.name "." || c.name == "node_modules" then Dir.gut c
             else gutExcluded c).name = c.name := by
          intro c
          by_cases hc : (strStartsWith c.name "." || c.name == "node_modules") = true
          · rw [if_pos hc, gut_name]
          · rw [if_neg hc, gutExcluded_name]
        have hnames : (gutExcludedList subs).map Dir.name = subs.map Dir.name := by
          induction subs with
          | nil => rfl
          | cons c cs ihc => simp only [gutExcludedList, List.map_cons, hname, ihc]
        have hsubs : ∀ (ds : List Dir) (dp : String),
            searchSubdirs lockName parse (gutExcludedList ds) dp depth =
            searchSubdirs lockName parse ds dp depth := by
          intro ds
          induction ds with
          | nil => intro dp; rfl
          | cons c cs ihc =>
            intro dp
            show searchSubdirs lockName parse
              ((if strStartsWith c.name "." || c.name == "node_modules" then Dir.gut c
                else gutExcluded c) :: gutExcludedList cs) dp depth = _
            rw [searchSubdirs, searchSubdirs, hname, ihc]
            by_cases hex : (strStartsWith c.name "." || c.name == "node_modules") = true
            · have hcond : (!strStartsWith c.name "." && c.name != "node_modules") = false := by
                rcases Bool.or_eq_true_iff.mp hex with h1 | h1
                · simp [h1]
                · simp [bne, h1]
              rw [if_neg (by simp [hcond]), if_neg (by simp [hcond])]
            · have hor : (strStartsWith c.name "." || c.name == "node_modules") = false :=
                Bool.eq_false_iff.mpr hex
              rcases Bool.or_eq_false_iff.mp hor with ⟨h1, h2⟩
              have hpos : (!strStartsWith c.name "." && c.name != "node_modules") = true := by
                simp [h1, bne, h2]
              rw [if_pos hpos, if_pos hpos, if_neg hex, ih c _ (depth + 1) (by omega)]
        rw [gutExcluded]
        rw [searchDir, searchDir]
        simp only [hd, if_false, hnames, hsubs]

/-- Which projects the walk finds (their root paths) does not depend on
the lock-file parse function: a lock file whose contents fail to parse
changes only that one project's dependency map, never which directories
are visited or recorded. -/
theorem searchDir_paths_parse_independent {β γ : Type} (lockName : String)
    (f : String → β) (g : String → γ) :
    ∀ (k : Nat) (d : Dir) (dirPath : String) (depth : Nat), 11 ≤ depth + k →
      (searchDir lockName f d dirPath depth).map FoundProject.path =
      (searchDir lockName g d dirPath depth).map FoundProject.path := by
  intro k
  induction k with
  | zero =>
    intro d dirPath depth h
    have hd : depth > 10 := by omega
    cases d
    simp [searchDir, hd]
  | succ k ih =>
    intro d dirPath depth h
    by_cases hd : depth > 10
    · cases d
      simp [searchDir, hd]
    · cases d with
      | mk n fls subs r p lc =>
        have hsubs : ∀ (ds : List Dir) (dp : String),
            (searchSubdirs lockName f ds dp depth).map FoundProject.path =
            (searchSubdirs lockName g ds dp depth).map FoundProject.path := by
          intro ds
          induction ds with
          | nil => intro dp; rfl
          | cons c cs ihc =>
            intro dp
            rw [searchSubdirs, searchSubdirs, List.map_append, List.map_append, ihc]
            congr 1
            by_cases hc : (!strStartsWith c.name "." && c.name != "node_modules") = true
            · rw [if_pos hc, if_pos hc]
              exact ih c _ (depth + 1) (by omega)
            · rw [if_neg hc, if_neg hc]
              rfl
        rw [searchDir, searchDir]
        simp only [hd, if_false]
        cases r
        · rfl
        · split_ifs with h1 h2 <;> simp [List.map_append, hsubs]

/-- C10: `findProjects` terminates on every root (it is a total function
of the snapshot), its walk never recurses beyond depth 10 from the root —
erasing everything more than 11 levels deep (the names at depth 11 are
listed by their depth-10 parents but never entered) leaves the result
unchanged — and it never descends into a directory named `node_modules`
or one whose name starts with `.` — erasing the contents of every such
strict descendant leaves the result unchanged. -/
theorem findProjects_bounded_walk {β : Type} (lockName : String)
    (parse : String → β) (root : Dir) (rootPath : String) :
    findProjects lockName parse (truncBeyond 11 root) rootPath =
      findProjects lockName parse root rootPath ∧
    findProjects lockName parse (gutExcluded root) rootPath =
      findProjects lockName parse root rootPath :=
  ⟨searchDir_truncBeyond lockName parse 11 root rootPath 0 (by omega),
   searchDir_gutExcluded lockName parse 11 root rootPath 0 (by omega)⟩

/-- C9 (counterexample): a lock file whose contents fail to parse is
handled by `NpmManager.parseLockFile`'s silent catch block — the function
returns the empty map and emits no log or report whatsoever, so no "count
of skipped items" is reported anywhere in this layer. -/
theorem lockfile_malformed_not_reported :
    jsonParse "not json" = none ∧
    npmParseLockFileWithLogs "not json" = ([], []) :=
  ⟨rfl, rfl⟩

/-- C9 (amended): a malformed lock file is fatal only for the affected
item — `parseLockFile` returns an empty dependency map instead of raising
(npm: any unparseable JSON; pnpm: an unreadable file), and the remaining
projects continue to be processed: which projects the walk records is
completely independent of the lock-file parse outcomes.  No count of
skipped items is reported by this layer. -/
theorem lockfile_parse_failure_nonfatal (content : String)
    (h : jsonParse content = none) :
    npmParseLockFile content = [] ∧
    pnpmParseLockFile none = [] ∧
    ∀ {β γ : Type} (lockName : String) (f : String → β) (g : String → γ)
      (root : Dir) (rootPath : String),
      (findProjects lockName f root rootPath).map FoundProject.path =
      (findProjects lockName g root rootPath).map FoundProject.path := by
  refine ⟨?_, rfl, ?_⟩
  · unfold npmParseLockFile
    rw [h]
  · intro β γ lockName f g root rootPath
    exact searchDir_paths_parse_independent lockName f g 11 root rootPath 0 (by omega)

/-- C9 witness: `"not json"` fails to parse, `parseLockFile` returns the
empty map on it, and in a concrete two-project tree the project with the
malformed lock file and its sibling are both still discovered. -/
theorem lockfile_parse_failure_nonfatal_witness :
    jsonParse "not json" = none ∧
    npmParseLockFile "not json" = [] ∧
    (findProjects "package-lock.json" npmParseLockFile
        (Dir.mk "root" []
          [Dir.mk "a" ["package.json", "package-lock.json"] [] true true "not json",
           Dir.mk "b" ["package.json", "package-lock.json"] [] true true "[]"]
          true true "")
        "/r").map FoundProject.path = ["/r/a", "/r/b"] :=
  ⟨rfl, (lockfile_parse_failure_nonfatal "not json" rfl).1, by
    simp [findProjects, searchDir, searchSubdirs, Dir.name, strStartsWith,
      listStartsWith]⟩

end PackagePurge
